import Mathlib

/-!
Verification development for the CS-inquiry automation webhook server
(`src/main.py`).  Python strings are modelled as `List Char` (Python `str`
is a sequence of Unicode code points, as is Lean's `List Char`); the three
outbound HTTP collaborators (completion service, record store, notification
webhook) are modelled by an explicit oracle (`World`) recording the outcome
each call would observe; fallible Python code is modelled with `Except`.
-/

namespace CSAgent

/-- Code points of a string literal. -/
def s2l (s : String) : List Char := s.data

/-- Whitespace predicate used by Python `str.strip()`. -/
def ws (c : Char) : Bool := c.isWhitespace

/-- `isPref p s`: `p` is a prefix of `s` (Python `s.startswith(p)`). -/
def isPref : List Char → List Char → Bool
  | [], _ => true
  | _ :: _, [] => false
  | a :: p, b :: s => a == b && isPref p s

/-- `hasSub p s`: `p` occurs as a contiguous substring of `s` (Python `p in s`). -/
def hasSub (p : List Char) : List Char → Bool
  | [] => p.isEmpty
  | c :: s => isPref p (c :: s) || hasSub p s

/-- Fueled worker for `repl`: scans left to right, removing each
non-overlapping occurrence of `p` (the fuel is only a termination device;
it never runs out when initialised with the length of the scanned list). -/
def replF (p : List Char) : Nat → List Char → List Char
  | _, [] => []
  | 0, _ :: _ => []
  | f + 1, c :: s =>
      if isPref p (c :: s) then replF p f (List.drop (p.length - 1) s)
      else c :: replF p f s

/-- Python `s.replace(p, "")` for a non-empty pattern `p`: removes the
leftmost non-overlapping occurrences of `p`, scanning left to right. -/
def repl (p s : List Char) : List Char := replF p s.length s

/-- Remove trailing characters satisfying `ws` (right half of Python `strip`). -/
def dropTrail : List Char → List Char
  | [] => []
  | c :: s =>
      let r := dropTrail s
      if r.isEmpty then (if ws c then [] else [c]) else c :: r

/-- Python `s.strip()`: remove leading and trailing whitespace. -/
def pystrip (l : List Char) : List Char := dropTrail (l.dropWhile ws)

/-! ### The three confidence markers and labels (src/main.py lines 107-124) -/

def tagHigh : List Char := s2l "[신뢰도: 높음]"
def tagMed : List Char := s2l "[신뢰도: 보통]"
def tagLow : List Char := s2l "[신뢰도: 낮음]"

def tagList : List (List Char) := [tagHigh, tagMed, tagLow]

def confHigh : List Char := s2l "🟢높음"
def confMed : List Char := s2l "🟡보통"
def confLow : List Char := s2l "🔴낮음"

/-- Confidence parsing of `generate_ai_draft` (lines 107-113): default is
medium; the checks run in the order high, low, medium, first match wins. -/
def confOf (draft : List Char) : List Char :=
  if hasSub tagHigh draft then confHigh
  else if hasSub tagLow draft then confLow
  else if hasSub tagMed draft then confMed
  else confMed

/-- Tag-stripping loop of `generate_ai_draft` (lines 116-117): for each tag
in the order high, medium, low, replace all occurrences with `""` and strip
surrounding whitespace. -/
def stripTags (draft : List Char) : List Char :=
  pystrip (repl tagLow (pystrip (repl tagMed (pystrip (repl tagHigh draft)))))

/-- Parsing of a successful model response in `generate_ai_draft`
(lines 104-120): cleaned draft text together with the confidence label. -/
def genParse (draft : List Char) : List Char × List Char :=
  (stripTags draft, confOf draft)

/-- Fallback draft text returned when the completion call raises (line 124). -/
def fallbackDraft : List Char := s2l "(AI 답변 생성 실패 — 수동 작성 필요)"

/-- `generate_ai_draft` (lines 87-124).  The completion service is an oracle
mapping the three message fields to `some text` (the model responded with
`text`) or `none` (the call raised); any raised error is caught and turned
into the fixed fallback pair, so the function is total. -/
def generate (oracle : List Char → List Char → List Char → Option (List Char))
    (title content category : List Char) : List Char × List Char :=
  match oracle title content category with
  | some text => genParse text
  | none => (fallbackDraft, confLow)

/-! ### JSON values and the inbound request body (webhook, lines 303-333) -/

/-- A parsed JSON value (numbers modelled as integers; the claims only
exercise integral numbers).  Python truthiness is `truthy` below. -/
inductive JVal where
  | jnull : JVal
  | jbool : Bool → JVal
  | jnum : Int → JVal
  | jstr : List Char → JVal
  | jarr : List JVal → JVal
  | jobj : List (List Char × JVal) → JVal

/-- Python truthiness of a JSON-decoded value (`None`, `False`, `0`, `""`,
`[]`, `{}` are falsy). -/
def truthy : JVal → Bool
  | .jnull => false
  | .jbool b => b
  | .jnum n => n != 0
  | .jstr s => !s.isEmpty
  | .jarr xs => !xs.isEmpty
  | .jobj m => !m.isEmpty

/-- The inbound request body: either it fails to parse as JSON
(`request.json()` raises, caught at lines 303-306) or it parses to a value. -/
inductive ReqBody where
  | badJson : ReqBody
  | parsed : JVal → ReqBody

/-- A Python exception escaping from normalization: `AttributeError` from
`raw_body.get(...)` on a non-dict, or pydantic's `ValidationError` from
`QnAPayload(**mapped)` (line 333). -/
inductive PyErr where
  | attributeError : PyErr
  | validationError : PyErr
  deriving DecidableEq

/-- `raw_body.get(k)` on a JSON object, with Python's `None` default. -/
def getJ (m : List (List Char × JVal)) (k : String) : JVal :=
  (List.lookup (s2l k) m).getD .jnull

/-- Python `a or b`: `a` when truthy, otherwise `b`. -/
def pyOrJ (a b : JVal) : JVal := if truthy a then a else b

/-- The `mapped` dict built by the webhook handler (lines 312-331): one
value per canonical field. -/
structure Mapped where
  qna_no : JVal
  title : JVal
  content : JVal
  writer_name : JVal
  product_code : JVal
  category : JVal
  channel : JVal

/-- Field-alias mapping of the webhook handler (lines 312-331): each field
is an `or`-chain over alias lookups, ending in a literal default (except
the identifier, whose chain ends in the last alias lookup itself). -/
def mapFields (m : List (List Char × JVal)) : Mapped where
  qna_no := pyOrJ (getJ m "qna_no") (pyOrJ (getJ m "no") (getJ m "qnaNo"))
  title := pyOrJ (getJ m "title") (pyOrJ (getJ m "subject") (.jstr (s2l "(제목 없음)")))
  content := pyOrJ (getJ m "content")
    (pyOrJ (getJ m "body") (pyOrJ (getJ m "question") (.jstr [])))
  writer_name := pyOrJ (getJ m "writer_name") (pyOrJ (getJ m "nickname")
    (pyOrJ (getJ m "member_name") (pyOrJ (getJ m "name") (.jstr (s2l "익명")))))
  product_code := pyOrJ (getJ m "product_code")
    (pyOrJ (getJ m "prod_code") (pyOrJ (getJ m "productCode") (.jstr [])))
  category := pyOrJ (getJ m "category") (pyOrJ (getJ m "type") (.jstr (s2l "기타")))
  channel := pyOrJ (getJ m "channel") (.jstr (s2l "아임웹Q&A"))

/-- Modelled from the spec: "For each target field, try an ordered list of
alias keys in priority order and take the first present, non-empty value;
if none present, use the documented default" (§4.1).  Used as the
specification side of the normalizer-refinement theorems. -/
def firstPresent (keys : List String) (dflt : JVal)
    (m : List (List Char × JVal)) : JVal :=
  match keys with
  | [] => dflt
  | k :: ks => if truthy (getJ m k) then getJ m k else firstPresent ks dflt m

/-! ### The canonical payload (`QnAPayload`, lines 56-64) -/

/-- The canonical inquiry (`QnAPayload`).  Text fields are strings; the
identifier is optional.  (The Python class makes every field `Optional`
with a default, but the handler always passes all seven keys; the string
fields the pipeline claims quantify over are plain strings.) -/
structure QnAPayload where
  qna_no : Option Int
  title : List Char
  content : List Char
  writer_name : List Char
  product_code : List Char
  category : List Char
  channel : List Char
  deriving DecidableEq

/-- Python `x or d` on a string: `d` when `x` is empty. -/
def pyOrL (x d : List Char) : List Char := if x.isEmpty then d else x

/-- Decimal value of a digit string (none when empty or non-digit). -/
def digitsVal (ds : List Char) : Option Nat :=
  if ds.isEmpty then none
  else ds.foldl (fun acc c =>
    match acc with
    | none => none
    | some n => if c.isDigit then some (n * 10 + (c.toNat - '0'.toNat)) else none)
    (some 0)

/-- Integer value of a plain integer literal, as pydantic's lax
string-to-int parse accepts for an `int` field ("7", "-12"); `none` for
anything else ("abc", ""). -/
def pyIntOfStr : List Char → Option Int
  | [] => none
  | '-' :: ds => (digitsVal ds).map (fun n => -(n : Int))
  | ds => (digitsVal ds).map (fun n => (n : Int))

/-- pydantic coercion of a decoded JSON value into the `Optional[int]`
field `qna_no`: `None` and integers are accepted, integer-literal strings
are parsed, and everything else (non-numeric strings, booleans, arrays,
objects) raises `ValidationError`.  (Where pydantic versions differ — v1
accepts booleans as ints — the model follows v2's lax mode; no theorem
depends on such a value.) -/
def coerceOptInt : JVal → Except PyErr (Option Int)
  | .jnull => .ok none
  | .jnum n => .ok (some n)
  | .jstr s =>
      match pyIntOfStr s with
      | some n => .ok (some n)
      | none => .error .validationError
  | _ => .error .validationError

/-- pydantic coercion of a decoded JSON value into a `str` field: strings
are accepted and other values raise `ValidationError` (pydantic v2's lax
mode does not coerce numbers, booleans or containers to `str`; v1 differs
only on numerics, and no theorem depends on such a value). -/
def coerceStr : JVal → Except PyErr (List Char)
  | .jstr s => .ok s
  | _ => .error .validationError

/-- `QnAPayload(**mapped)` (line 333): pydantic validates each mapped
value against its field type and raises `ValidationError` when a value
cannot be coerced. -/
def buildPayload (mp : Mapped) : Except PyErr QnAPayload := do
  let q ← coerceOptInt mp.qna_no
  let t ← coerceStr mp.title
  let c ← coerceStr mp.content
  let w ← coerceStr mp.writer_name
  let pc ← coerceStr mp.product_code
  let cat ← coerceStr mp.category
  let ch ← coerceStr mp.channel
  return ⟨q, t, c, w, pc, cat, ch⟩

/-- Normalization of the webhook handler, full cited span (lines 303-333):
an unparsable body is replaced by the empty mapping; a body parsing to a
JSON object is alias-mapped and then validated into a `QnAPayload`, which
can raise `ValidationError`; a body parsing to any other JSON value makes
`raw_body.get(...)` raise `AttributeError` (lists, strings, numbers,
booleans and `None` have no `get` method). -/
def normalize : ReqBody → Except PyErr QnAPayload
  | .badJson => buildPayload (mapFields [])
  | .parsed (.jobj m) => buildPayload (mapFields m)
  | .parsed _ => .error .attributeError

/-- The mapped values have shapes all pydantic versions accept without
error: text fields hold strings and the identifier holds an integer or
null. -/
def CoercibleShapes (mp : Mapped) : Prop :=
  (mp.qna_no = .jnull ∨ ∃ n : Int, mp.qna_no = .jnum n) ∧
  (∃ s, mp.title = .jstr s) ∧ (∃ s, mp.content = .jstr s) ∧
  (∃ s, mp.writer_name = .jstr s) ∧ (∃ s, mp.product_code = .jstr s) ∧
  (∃ s, mp.category = .jstr s) ∧ (∃ s, mp.channel = .jstr s)

/-! ### Record store client (`save_to_notion`, lines 130-211) -/

/-- Category alias table (lines 139-148). -/
def categoryMap : List (List Char × List Char) :=
  [(s2l "배송", s2l "배송"), (s2l "교환", s2l "교환반품"),
   (s2l "반품", s2l "교환반품"), (s2l "교환반품", s2l "교환반품"),
   (s2l "상품", s2l "상품정보"), (s2l "상품정보", s2l "상품정보"),
   (s2l "결제", s2l "결제"), (s2l "기타", s2l "기타")]

/-- `category_map.get(payload.category, "기타")` (line 149). -/
def mapCategory (c : List Char) : List Char :=
  (List.lookup c categoryMap).getD (s2l "기타")

/-- Channel alias table (lines 152-160). -/
def channelMap : List (List Char × List Char) :=
  [(s2l "아임웹Q&A", s2l "아임웹Q&A"), (s2l "아임웹", s2l "아임웹Q&A"),
   (s2l "imweb", s2l "아임웹Q&A"), (s2l "무신사", s2l "무신사"),
   (s2l "musinsa", s2l "무신사"), (s2l "채널톡", s2l "채널톡"),
   (s2l "channel", s2l "채널톡")]

/-- `channel_map.get(payload.channel, "아임웹Q&A")` (line 161). -/
def mapChannel (c : List Char) : List Char :=
  (List.lookup c channelMap).getD (s2l "아임웹Q&A")

/-- The property schema of the record created in the store
(`notion_payload["properties"]`, lines 163-190).  `dateKst` stands for the
wall-clock date string computed at line 136, passed in as a parameter. -/
structure NotionProps where
  titleText : List Char
  qnaNo : Option Int
  writerText : List Char
  contentText : List Char
  productText : List Char
  category : List Char
  channel : List Char
  draftText : List Char
  confidence : List Char
  reviewed : Bool
  finalReply : List Char
  status : List Char
  dateKst : List Char
  deriving DecidableEq

/-- Builds the stored record's properties (lines 163-190): body text and
draft are truncated to 2000 code points, category and channel are mapped
through the static tables, review flag false, status "대기". -/
def buildNotionProps (dateKst : List Char) (p : QnAPayload)
    (aiDraft confidence : List Char) : NotionProps where
  titleText := pyOrL p.title (s2l "(제목 없음)")
  qnaNo := p.qna_no
  writerText := pyOrL p.writer_name (s2l "익명")
  contentText := (pyOrL p.content []).take 2000
  productText := pyOrL p.product_code []
  category := mapCategory p.category
  channel := mapChannel p.channel
  draftText := aiDraft.take 2000
  confidence := confidence
  reviewed := false
  finalReply := []
  status := s2l "대기"
  dateKst := dateKst

/-! ### Notifier (`send_slack_notification`, lines 217-285) -/

/-- Confidence-to-emoji table with its `"⚪"` fallback (lines 225-229). -/
def confEmoji (confidence : List Char) : List Char :=
  (List.lookup confidence
    [(confHigh, s2l "🟢"), (confMed, s2l "🟡"), (confLow, s2l "🔴")]).getD
    (s2l "⚪")

/-- The fields of the Slack message relevant to the claims
(lines 231-277): content excerpt truncated to 300 code points, draft
excerpt truncated to 500, confidence emoji. -/
structure SlackMsg where
  contentExcerpt : List Char
  draftExcerpt : List Char
  emoji : List Char
  confidence : List Char
  deriving DecidableEq

/-- Builds the Slack notification message (lines 231-277). -/
def buildSlackMsg (p : QnAPayload) (aiDraft confidence : List Char) : SlackMsg where
  contentExcerpt := (pyOrL p.content []).take 300
  draftExcerpt := aiDraft.take 500
  emoji := confEmoji confidence
  confidence := confidence

/-! ### Endpoint controller (`webhook`, lines 336-381) -/

/-- Oracle for the outbound collaborators of one request:
* `claude` — the completion service; `none` means the call raised
  (caught at line 122);
* `notionRaises` — the store-creation POST itself raises a transport
  error (line 193; nothing catches it);
* `notionStatus` — otherwise, the creation response status;
* `notionBody` — for a 200 response, `some (id, url)` when the body
  parses with both fields, `none` when `resp.json()["id"]/["url"]`
  (lines 207-209) raises (nothing catches it);
* `patchRaises` — the link-back patch raises (caught at lines 348-364);
* `slackRaises` — the notification POST itself raises a transport error
  (line 280; nothing catches it);
* `slackStatus` — otherwise, the notification response status (only
  logged, lines 282-285). -/
structure World where
  claude : List Char → List Char → List Char → Option (List Char)
  notionRaises : Bool
  notionStatus : Nat
  notionBody : Option (List Char × List Char)
  patchRaises : Bool
  slackRaises : Bool
  slackStatus : Nat

/-- Which outbound calls a request performed. -/
structure Trace where
  notionCalled : Bool
  patchCalled : Bool
  slackCalled : Bool
  deriving DecidableEq

/-- The endpoint's outcome: the 200 success envelope (lines 369-381), the
handled `HTTPException` rendered as an HTTP error status (lines 203-205),
or an uncaught exception aborting the handler (the hosting framework then
produces a 500 response). -/
inductive Resp where
  | success : Option Int → List Char → List Char → List Char → Resp
  | httpError : Nat → Resp
  | serverError : Resp
  deriving DecidableEq

def Resp.isSuccess : Resp → Bool
  | .success _ _ _ _ => true
  | .httpError _ => false
  | .serverError => false

/-- The controller pipeline from the canonical payload on (lines 336-381):
generate the draft (total, line 336); create the store record — a transport
raise of the creation POST propagates uncaught, a non-200 creation
response raises `HTTPException(502)` (lines 203-205), and a 200 response
whose body lacks parseable `id`/`url` fields raises uncaught at lines
207-209, each short-circuiting the rest; then attempt the link-back patch
(failure caught and ignored); then send the notification — a transport
raise of that POST propagates uncaught, while its response status is only
logged; finally return the success envelope. -/
def pipeline (w : World) (p : QnAPayload) : Resp × Trace :=
  let dc := generate w.claude p.title p.content p.category
  if w.notionRaises then (Resp.serverError, ⟨true, false, false⟩)
  else if w.notionStatus = 200 then
    match w.notionBody with
    | none => (Resp.serverError, ⟨true, false, false⟩)
    | some (pid, purl) =>
        if w.slackRaises then (Resp.serverError, ⟨true, true, true⟩)
        else (Resp.success p.qna_no pid purl dc.2, ⟨true, true, true⟩)
  else (Resp.httpError 502, ⟨true, false, false⟩)

/-! ### Marker-segmentation predicate

`CleanOver A s` says `s` is a concatenation of single non-`'['` characters
and whole segments drawn from `A`.  `Clean s` (with `A` the three marker
strings) captures the model texts in which every `'['` begins a complete
confidence marker — the texts on which the tag-stripping loop provably
removes every marker. -/

inductive CleanOver (A : List (List Char)) : List Char → Prop where
  | nil : CleanOver A []
  | chr {c : Char} {s : List Char} : c ≠ '[' → CleanOver A s → CleanOver A (c :: s)
  | seg {t s : List Char} : t ∈ A → CleanOver A s → CleanOver A (t ++ s)

/-- The model text is a concatenation of complete confidence markers and
marker-free pieces containing no `'['` character. -/
def Clean (s : List Char) : Prop := CleanOver tagList s

end CSAgent

namespace CSAgent

/-! ### Lemmas about the fueled replacement `repl` -/

theorem replF_congr (p : List Char) :
    ∀ (f₁ f₂ : Nat) (s : List Char), s.length ≤ f₁ → s.length ≤ f₂ →
      replF p f₁ s = replF p f₂ s := by
  intro f₁
  induction f₁ with
  | zero =>
    intro f₂ s h₁ _
    have hs : s = [] := List.eq_nil_of_length_eq_zero (Nat.le_zero.mp h₁)
    subst hs
    cases f₂ <;> rfl
  | succ f ih =>
    intro f₂ s h₁ h₂
    cases s with
    | nil => cases f₂ <;> rfl
    | cons c s' =>
      cases f₂ with
      | zero => exact absurd h₂ (by simp)
      | succ g =>
        have hs' : s'.length ≤ f := Nat.lt_succ_iff.mp h₁
        have hs'' : s'.length ≤ g := Nat.lt_succ_iff.mp h₂
        show (if isPref p (c :: s') = true
              then replF p f (List.drop (p.length - 1) s')
              else c :: replF p f s') =
            (if isPref p (c :: s') = true
              then replF p g (List.drop (p.length - 1) s')
              else c :: replF p g s')
        by_cases hpref : isPref p (c :: s') = true
        · have hd : (List.drop (p.length - 1) s').length ≤ s'.length := by
            simp [List.length_drop]
          rw [if_pos hpref, if_pos hpref]
          exact ih g _ (le_trans hd hs') (le_trans hd hs'')
        · rw [if_neg hpref, if_neg hpref]
          exact congrArg _ (ih g s' hs' hs'')

theorem repl_cons (p : List Char) (c : Char) (s : List Char) :
    repl p (c :: s) =
      if isPref p (c :: s) then repl p (List.drop (p.length - 1) s)
      else c :: repl p s := by
  show (if isPref p (c :: s) = true
        then replF p s.length (List.drop (p.length - 1) s)
        else c :: replF p s.length s) = _
  by_cases hpref : isPref p (c :: s) = true
  · have hd : (List.drop (p.length - 1) s).length ≤ s.length := by
      simp [List.length_drop]
    rw [if_pos hpref, if_pos hpref]
    exact replF_congr p _ _ _ hd le_rfl
  · rw [if_neg hpref, if_neg hpref]
    rfl

theorem isPref_append_self (p s : List Char) : isPref p (p ++ s) = true := by
  induction p with
  | nil => rfl
  | cons a p ih => simp [isPref, ih]

theorem isPref_false_of_head_ne {p s : List Char} {a c : Char}
    (hp : p = a :: s) (hc : c ≠ a) (r : List Char) :
    isPref p (c :: r) = false := by
  subst hp
  simp [isPref, Ne.symm hc]

theorem isPref_append_eq_of_length :
    ∀ {p x : List Char} (s : List Char), p.length = x.length →
      isPref p (x ++ s) = true → p = x := by
  intro p
  induction p with
  | nil =>
    intro x s hlen _
    exact (List.eq_nil_of_length_eq_zero hlen.symm).symm
  | cons a p ih =>
    intro x s hlen hpref
    cases x with
    | nil => simp at hlen
    | cons b x' =>
      simp only [List.cons_append, isPref, Bool.and_eq_true, beq_iff_eq] at hpref
      have := ih s (by simpa using hlen) hpref.2
      simp [hpref.1, this]

theorem drop_length_append (x y : List Char) :
    List.drop x.length (x ++ y) = y := by
  induction x with
  | nil => rfl
  | cons a x ih => simp [ih]

theorem repl_self {T : List Char} (hT : T ≠ []) (s : List Char) :
    repl T (T ++ s) = repl T s := by
  cases T with
  | nil => exact absurd rfl hT
  | cons c T' =>
    rw [List.cons_append, repl_cons]
    have hpref : isPref (c :: T') (c :: (T' ++ s)) = true := by
      have h := isPref_append_self (c :: T') s
      simpa using h
    rw [if_pos hpref]
    have hdrop : List.drop ((c :: T').length - 1) (T' ++ s) = s := by
      simp only [List.length_cons, Nat.succ_sub_one]
      exact drop_length_append T' s
    rw [hdrop]

theorem repl_skip_nobracket {T : List Char} {a : Char} {T' : List Char}
    (hT : T = a :: T') (ha : a = '[') :
    ∀ (x : List Char) (s : List Char), (∀ c ∈ x, c ≠ '[') →
      repl T (x ++ s) = x ++ repl T s := by
  intro x
  induction x with
  | nil => intro s _; rfl
  | cons c x' ih =>
    intro s hx
    have hc : c ≠ '[' := hx c (by simp)
    rw [List.cons_append, repl_cons,
      isPref_false_of_head_ne hT (by rw [ha]; exact hc) _, if_neg (by simp)]
    rw [ih s (fun d hd => hx d (by simp [hd]))]
    rfl

theorem repl_segment {T : List Char} {a : Char} {T' : List Char}
    (hT : T = a :: T') (ha : a = '[') (x s : List Char)
    (h0 : isPref T (x ++ s) = false) (hx : ∀ c ∈ x.tail, c ≠ '[') :
    repl T (x ++ s) = x ++ repl T s := by
  cases x with
  | nil => simp
  | cons c x' =>
    rw [List.cons_append] at h0
    rw [List.cons_append, repl_cons, h0, if_neg (by simp)]
    rw [repl_skip_nobracket hT ha x' s (by simpa using hx)]
    rfl

/-! ### Concrete facts about the three marker strings -/

theorem tag_headBracket : ∀ t ∈ tagList, t.head? = some '[' := by decide

theorem tag_tail_nobracket : ∀ t ∈ tagList, ∀ c ∈ t.tail, c ≠ '[' := by decide

theorem tag_length : ∀ t ∈ tagList, t.length = 9 := by decide

theorem tag_dropTrail : ∀ t ∈ tagList, dropTrail t = t := by decide

/-! ### One replacement pass on marker-segmented text -/

theorem cleanOver_repl {B : List (List Char)} {T : List Char}
    (hT : T ∈ tagList) (hB : ∀ t ∈ B, t ∈ tagList) :
    ∀ {s : List Char}, CleanOver (T :: B) s → CleanOver B (repl T s) := by
  have hhead : T.head? = some '[' := tag_headBracket T hT
  cases T with
  | nil => simp at hhead
  | cons a T' =>
    have ha : a = '[' := by simpa using hhead
    intro s h
    induction h with
    | nil => exact CleanOver.nil
    | chr hc _ ih =>
      rename_i c s' _
      rw [repl_cons, isPref_false_of_head_ne rfl (by rw [ha]; exact hc) _,
        if_neg (by simp)]
      exact CleanOver.chr hc ih
    | seg ht _ ih =>
      rename_i t s' _
      by_cases het : t = a :: T'
      · subst het
        rw [repl_self (by simp) s']
        exact ih
      · have htB : t ∈ B := by
          cases List.mem_cons.mp ht with
          | inl heq => exact absurd heq het
          | inr hmem => exact hmem
        have hlen : (a :: T').length = t.length := by
          rw [tag_length _ hT, tag_length t (hB t htB)]
        have h0 : isPref (a :: T') (t ++ s') = false := by
          by_contra hcon
          have htrue : isPref (a :: T') (t ++ s') = true := by
            simpa using hcon
          exact het (isPref_append_eq_of_length s' hlen htrue).symm
        rw [repl_segment rfl ha t s' h0 (tag_tail_nobracket t (hB t htB))]
        exact CleanOver.seg htB ih

/-! ### Stripping whitespace preserves marker segmentation -/

theorem cleanOver_dropWhile {A : List (List Char)}
    (hA : ∀ t ∈ A, t.head? = some '[') :
    ∀ {s : List Char}, CleanOver A s → CleanOver A (s.dropWhile ws) := by
  intro s h
  induction h with
  | nil => exact CleanOver.nil
  | chr hc hs ih =>
    rename_i c s'
    rw [List.dropWhile_cons]
    by_cases hw : ws c = true
    · rw [if_pos hw]
      exact ih
    · rw [if_neg hw]
      exact CleanOver.chr hc hs
  | seg ht hs ih =>
    rename_i t s'
    have hhead : t.head? = some '[' := hA t ht
    cases t with
    | nil => simp at hhead
    | cons a t' =>
      have ha : a = '[' := by simpa using hhead
      rw [List.cons_append, List.dropWhile_cons, if_neg (by rw [ha]; decide)]
      exact CleanOver.seg ht hs

theorem dropTrail_append (x y : List Char) :
    dropTrail (x ++ y) =
      if (dropTrail y).isEmpty then dropTrail x else x ++ dropTrail y := by
  induction x with
  | nil =>
    by_cases hy : (dropTrail y).isEmpty
    · rw [List.nil_append, if_pos hy]
      have : dropTrail y = [] := by
        cases h : dropTrail y
        · rfl
        · rw [h] at hy; simp at hy
      rw [this]
      rfl
    · rw [List.nil_append, if_neg hy, List.nil_append]
  | cons c x' ih =>
    show (let r := dropTrail (x' ++ y);
          if r.isEmpty then (if ws c then [] else [c]) else c :: r) = _
    rw [ih]
    by_cases hy : (dropTrail y).isEmpty
    · rw [if_pos hy, if_pos hy]
      rfl
    · rw [if_neg hy]
      have hne : (x' ++ dropTrail y).isEmpty = false := by
        cases h : dropTrail y with
        | nil => rw [h] at hy; simp at hy
        | cons a r => cases x' <;> simp [h, List.isEmpty]
      rw [if_neg hy]
      simp only [hne, Bool.false_eq_true, if_false]
      rfl

theorem cleanOver_dropTrail {A : List (List Char)}
    (hA : ∀ t ∈ A, dropTrail t = t) :
    ∀ {s : List Char}, CleanOver A s → CleanOver A (dropTrail s) := by
  intro s h
  induction h with
  | nil => exact CleanOver.nil
  | chr hc _ ih =>
    rename_i c s' _
    show CleanOver A
      (let r := dropTrail s';
        if r.isEmpty then (if ws c then [] else [c]) else c :: r)
    by_cases hr : (dropTrail s').isEmpty
    · by_cases hw : ws c = true
      · simp only [hr, hw, if_true]
        exact CleanOver.nil
      · simp only [hr, hw, if_true, Bool.false_eq_true, if_false]
        exact CleanOver.chr hc CleanOver.nil
    · simp only [hr, Bool.false_eq_true, if_false]
      exact CleanOver.chr hc ih
  | seg ht hs ih =>
    rename_i t s'
    rw [dropTrail_append]
    by_cases hr : (dropTrail s').isEmpty
    · rw [if_pos hr, hA t ht]
      have : t = t ++ [] := by simp
      rw [this]
      exact CleanOver.seg ht CleanOver.nil
    · rw [if_neg hr]
      exact CleanOver.seg ht ih

theorem cleanOver_pystrip {A : List (List Char)}
    (hhead : ∀ t ∈ A, t.head? = some '[') (hdt : ∀ t ∈ A, dropTrail t = t)
    {s : List Char} (h : CleanOver A s) : CleanOver A (pystrip s) :=
  cleanOver_dropTrail hdt (cleanOver_dropWhile hhead h)

/-! ### Marker-segmented text, once fully processed, holds no marker -/

theorem cleanOver_nil_nobracket :
    ∀ {s : List Char}, CleanOver [] s → ∀ c ∈ s, c ≠ '[' := by
  intro s h
  induction h with
  | nil => intro c hc; simp at hc
  | chr hc _ ih =>
    intro d hd
    cases List.mem_cons.mp hd with
    | inl heq => rw [heq]; assumption
    | inr hmem => exact ih d hmem
  | seg ht _ _ => simp at ht

theorem hasSub_head_mem :
    ∀ {s p : List Char} {a : Char} {p' : List Char},
      hasSub p s = true → p = a :: p' → a ∈ s := by
  intro s
  induction s with
  | nil =>
    intro p a p' hsub hp
    rw [hp] at hsub
    simp [hasSub, List.isEmpty] at hsub
  | cons c s' ih =>
    intro p a p' hsub hp
    rw [hasSub, Bool.or_eq_true] at hsub
    cases hsub with
    | inl hpref =>
      rw [hp, isPref, Bool.and_eq_true, beq_iff_eq] at hpref
      rw [hpref.1] at hp ⊢
      exact List.mem_cons_self c s'
    | inr hrest => exact List.mem_cons_of_mem c (ih hrest hp)

theorem clean_stripTags_noTag {d : List Char} (hd : Clean d) :
    ∀ T ∈ tagList, hasSub T (stripTags d) = false := by
  have hsub : ∀ B : List (List Char), (∀ t ∈ B, t ∈ tagList) →
      (∀ t ∈ B, t.head? = some '[') ∧ (∀ t ∈ B, dropTrail t = t) := by
    intro B hB
    exact ⟨fun t ht => tag_headBracket t (hB t ht),
      fun t ht => tag_dropTrail t (hB t ht)⟩
  have hB2 : ∀ t ∈ [tagMed, tagLow], t ∈ tagList := by decide
  have hB1 : ∀ t ∈ ([tagLow] : List (List Char)), t ∈ tagList := by decide
  have h1 : CleanOver [tagMed, tagLow] (repl tagHigh d) :=
    cleanOver_repl (by decide) hB2 hd
  have h1s := cleanOver_pystrip (hsub _ hB2).1 (hsub _ hB2).2 h1
  have h2 : CleanOver [tagLow] (repl tagMed (pystrip (repl tagHigh d))) :=
    cleanOver_repl (by decide) hB1 h1s
  have h2s := cleanOver_pystrip (hsub _ hB1).1 (hsub _ hB1).2 h2
  have h3 : CleanOver []
      (repl tagLow (pystrip (repl tagMed (pystrip (repl tagHigh d))))) :=
    cleanOver_repl (by decide) (by simp) h2s
  have h3s := cleanOver_pystrip (by simp) (by simp) h3
  have hnb : ∀ c ∈ stripTags d, c ≠ '[' := cleanOver_nil_nobracket h3s
  intro T hT
  by_contra hcon
  have htrue : hasSub T (stripTags d) = true := by simpa using hcon
  have hhead : T.head? = some '[' := tag_headBracket T hT
  cases T with
  | nil => simp at hhead
  | cons a T' =>
    have ha : a = '[' := by simpa using hhead
    exact hnb a (hasSub_head_mem htrue rfl) ha

/-! ### The output of `pystrip` is trimmed -/

theorem dropWhile_head_not_ws :
    ∀ {l : List Char} {c : Char},
      (List.dropWhile ws l).head? = some c → ws c = false := by
  intro l
  induction l with
  | nil => intro c h; simp at h
  | cons a l' ih =>
    intro c h
    rw [List.dropWhile_cons] at h
    by_cases hw : ws a = true
    · rw [if_pos hw] at h
      exact ih h
    · rw [if_neg hw] at h
      simp only [List.head?_cons, Option.some.injEq] at h
      rw [h] at hw
      simpa using hw

theorem dropTrail_head_sub {l : List Char} {c : Char}
    (h : (dropTrail l).head? = some c) : l.head? = some c := by
  cases l with
  | nil => simp [dropTrail] at h
  | cons a s =>
    revert h
    show ((let r := dropTrail s;
          if r.isEmpty then (if ws a then [] else [a]) else a :: r).head? = some c) →
        (a :: s).head? = some c
    intro h
    by_cases hr : (dropTrail s).isEmpty
    · by_cases hw : ws a = true
      · simp only [hr, hw, if_true] at h
        simp at h
      · simp only [hr, hw, if_true, Bool.false_eq_true, if_false] at h
        simpa using h
    · simp only [hr, Bool.false_eq_true, if_false] at h
      simpa using h

theorem dropTrail_getLast_not_ws :
    ∀ {l : List Char} {c : Char},
      (dropTrail l).getLast? = some c → ws c = false := by
  intro l
  induction l with
  | nil => intro c h; simp [dropTrail] at h
  | cons a s ih =>
    intro c h
    revert h
    show ((let r := dropTrail s;
          if r.isEmpty then (if ws a then [] else [a]) else a :: r).getLast? = some c) →
        ws c = false
    intro h
    by_cases hr : (dropTrail s).isEmpty
    · by_cases hw : ws a = true
      · simp only [hr, hw, if_true] at h
        simp at h
      · simp only [hr, hw, if_true, Bool.false_eq_true, if_false] at h
        simp only [List.getLast?_singleton, Option.some.injEq] at h
        rw [h] at hw
        simpa using hw
    · simp only [hr, Bool.false_eq_true, if_false] at h
      cases hs : dropTrail s with
      | nil => rw [hs] at hr; simp at hr
      | cons b r =>
        rw [hs, List.getLast?_cons_cons] at h
        rw [hs] at ih
        exact ih h

theorem pystrip_head_not_ws {l : List Char} {c : Char}
    (h : (pystrip l).head? = some c) : ws c = false :=
  dropWhile_head_not_ws (dropTrail_head_sub h)

theorem pystrip_getLast_not_ws {l : List Char} {c : Char}
    (h : (pystrip l).getLast? = some c) : ws c = false :=
  dropTrail_getLast_not_ws h

/-- `x or ""` on strings is the identity. -/
theorem pyOrL_nil (l : List Char) : pyOrL l [] = l := by
  by_cases h : l.isEmpty
  · rw [pyOrL, if_pos h]
    cases l with
    | nil => rfl
    | cons a s => simp at h
  · rw [pyOrL, if_neg h]

/-! ### Claim C1 -/

/-- C1, counterexample.  The claim says the returned draft text contains
none of the three raw marker strings.  On the model text
`"[신뢰[신뢰도: 높음]도: 높음]"`, removing the single (inner) occurrence of
`"[신뢰도: 높음]"` splices the surrounding characters into a new occurrence,
so the text returned by the parsing step of `generate_ai_draft` is exactly
the raw high marker. -/
theorem claim_C1_counterexample :
    (genParse (s2l "[신뢰[신뢰도: 높음]도: 높음]")).1 = tagHigh ∧
    hasSub tagHigh (genParse (s2l "[신뢰[신뢰도: 높음]도: 높음]")).1 = true ∧
    (genParse (s2l "[신뢰[신뢰도: 높음]도: 높음]")).2 = confHigh := by
  decide

/-- C1, amended.  For every model response text, the parsing step of
`generate_ai_draft` chooses exactly one confidence label by first-match
priority high > low > medium over the three recognized in-text markers,
defaulting to medium when none match; the returned draft text has
surrounding whitespace trimmed; and whenever the model text is a
concatenation of complete markers and marker-free pieces containing no
`'['` (so that deleting a marker occurrence cannot splice surrounding text
into a new occurrence), the returned text contains none of the three raw
marker strings. -/
theorem claim_C1 (d : List Char) :
    (hasSub tagHigh d = true → (genParse d).2 = confHigh) ∧
    (hasSub tagHigh d = false → hasSub tagLow d = true →
      (genParse d).2 = confLow) ∧
    (hasSub tagHigh d = false → hasSub tagLow d = false →
      (genParse d).2 = confMed) ∧
    (∀ c : Char, ((genParse d).1.head? = some c → ws c = false) ∧
      ((genParse d).1.getLast? = some c → ws c = false)) ∧
    (Clean d → ∀ T ∈ tagList, hasSub T (genParse d).1 = false) := by
  refine ⟨?_, ?_, ?_, ?_, ?_⟩
  · intro h1
    simp [genParse, confOf, h1]
  · intro h1 h2
    simp [genParse, confOf, h1, h2]
  · intro h1 h2
    simp [genParse, confOf, h1, h2]
  · intro c
    exact ⟨fun h => pystrip_head_not_ws h, fun h => pystrip_getLast_not_ws h⟩
  · intro hcl
    exact clean_stripTags_noTag hcl

/-- C1, witness: the amended theorem applied to the model text consisting
of the high marker alone. -/
theorem claim_C1_witness :
    (genParse tagHigh).2 = confHigh ∧
    (∀ T ∈ tagList, hasSub T (genParse tagHigh).1 = false) := by
  have hcl : Clean tagHigh := by
    have h := CleanOver.seg (A := tagList) (t := tagHigh) (s := [])
      (by decide) CleanOver.nil
    simpa using h
  exact ⟨(claim_C1 tagHigh).1 (by decide),
    (claim_C1 tagHigh).2.2.2.2 hcl⟩

/-! ### Claim C2 -/

/-- C2, counterexample.  The claim says a non-200 store-creation response
is the only failure in the pipeline that prevents a success response.  In
this world the store call returns 200 with a well-formed body (the store
does not fail), yet the uncaught transport raise of the notification POST
(line 280, call at line 367 unguarded) aborts the request without a
success acknowledgment. -/
theorem claim_C2_counterexample :
    (pipeline ⟨fun _ _ _ => none, false, 200, some (s2l "pid", s2l "purl"),
        false, true, 200⟩ ⟨none, [], [], [], [], [], []⟩).1 =
      Resp.serverError ∧
    (pipeline ⟨fun _ _ _ => none, false, 200, some (s2l "pid", s2l "purl"),
        false, true, 200⟩ ⟨none, [], [], [], [], [], []⟩).1.isSuccess = false := by
  decide

/-- C2, amended.  If the record-store creation call returns a non-200
status, the pipeline raises `HTTPException(502)`: the request ends with an
HTTP 502 error, the link-back patch and the notification call are not
performed, and no success acknowledgment is returned.  It is, however,
only the sole fatal failure among the failure modes the code handles: an
uncaught transport raise of the store or notification POST, or a 200
store response whose body lacks the expected id/url fields, also aborts
the request without success; when none of those uncaught paths fires and
the store returns 200 with a well-formed body, the success acknowledgment
is returned whatever the completion call, the link-back patch and the
notification response status do. -/
theorem claim_C2 (w : World) (p : QnAPayload) :
    (w.notionRaises = false → w.notionStatus ≠ 200 →
      pipeline w p = (Resp.httpError 502, ⟨true, false, false⟩)) ∧
    (w.notionRaises = true →
      pipeline w p = (Resp.serverError, ⟨true, false, false⟩)) ∧
    (w.notionRaises = false → w.notionStatus = 200 → w.notionBody = none →
      pipeline w p = (Resp.serverError, ⟨true, false, false⟩)) ∧
    (∀ pid purl, w.notionRaises = false → w.notionStatus = 200 →
      w.notionBody = some (pid, purl) → w.slackRaises = true →
      pipeline w p = (Resp.serverError, ⟨true, true, true⟩)) ∧
    (∀ pid purl, w.notionRaises = false → w.notionStatus = 200 →
      w.notionBody = some (pid, purl) → w.slackRaises = false →
      (pipeline w p).1 =
        Resp.success p.qna_no pid purl
          (generate w.claude p.title p.content p.category).2 ∧
      (pipeline w p).1.isSuccess = true) := by
  refine ⟨?_, ?_, ?_, ?_, ?_⟩
  · intro h1 h2
    simp [pipeline, h1, h2]
  · intro h1
    simp [pipeline, h1]
  · intro h1 h2 h3
    simp [pipeline, h1, h2, h3]
  · intro pid purl h1 h2 h3 h4
    simp [pipeline, h1, h2, h3, h4]
  · intro pid purl h1 h2 h3 h4
    simp [pipeline, h1, h2, h3, h4, Resp.isSuccess]

/-- C2, witness: a store failure yields the 502 error with no link-back
and no notification; a store success with a well-formed body and no
transport raise yields the acknowledgment. -/
theorem claim_C2_witness :
    pipeline ⟨fun _ _ _ => none, false, 500, none, false, false, 200⟩
        ⟨none, [], [], [], [], [], []⟩ =
      (Resp.httpError 502, ⟨true, false, false⟩) ∧
    (pipeline ⟨fun _ _ _ => none, false, 200, some ([], []), false, false, 200⟩
        ⟨none, [], [], [], [], [], []⟩).1.isSuccess = true :=
  ⟨(claim_C2 ⟨fun _ _ _ => none, false, 500, none, false, false, 200⟩
      ⟨none, [], [], [], [], [], []⟩).1 rfl (by decide),
    ((claim_C2 ⟨fun _ _ _ => none, false, 200, some ([], []), false, false, 200⟩
      ⟨none, [], [], [], [], [], []⟩).2.2.2.2 [] [] rfl rfl rfl rfl).2⟩

/-! ### Claim C3 -/

/-- C3.  When the completion-service call raises, `generate_ai_draft`
catches the error and returns the fixed fallback draft with confidence
forced to low (it is a total function of the oracle — no exception
reaches the controller), and the controller still performs the record
store call; the fallback draft is stored untruncated. -/
theorem claim_C3 (w : World) (p : QnAPayload)
    (h : w.claude p.title p.content p.category = none) :
    generate w.claude p.title p.content p.category = (fallbackDraft, confLow) ∧
    (pipeline w p).2.notionCalled = true ∧
    (∀ dk : List Char,
      (buildNotionProps dk p fallbackDraft confLow).draftText = fallbackDraft) := by
  refine ⟨by simp [generate, h], ?_, ?_⟩
  · by_cases h1 : w.notionRaises = true
    · simp [pipeline, h1]
    · by_cases h2 : w.notionStatus = 200
      · cases hb : w.notionBody with
        | none => simp [pipeline, h1, h2, hb]
        | some pu =>
          by_cases h3 : w.slackRaises = true <;> simp [pipeline, h1, h2, hb, h3]
      · simp [pipeline, h1, h2]
  · intro dk
    show fallbackDraft.take 2000 = fallbackDraft
    decide

/-- C3, witness: a failing completion call in a concrete world. -/
theorem claim_C3_witness :
    generate (fun _ _ _ => none) [] [] [] = (fallbackDraft, confLow) ∧
    (pipeline ⟨fun _ _ _ => none, false, 200, some ([], []), false, false, 200⟩
      ⟨none, [], [], [], [], [], []⟩).2.notionCalled = true :=
  ⟨(claim_C3 ⟨fun _ _ _ => none, false, 200, some ([], []), false, false, 200⟩
      ⟨none, [], [], [], [], [], []⟩ rfl).1,
    (claim_C3 ⟨fun _ _ _ => none, false, 200, some ([], []), false, false, 200⟩
      ⟨none, [], [], [], [], [], []⟩ rfl).2.1⟩

/-! ### Claim C4 -/

/-- C4, counterexample.  The claim says confidence defaults to medium when
the generation call fails; in the code (line 124) a failed call returns
confidence `"🔴낮음"` (low), not `"🟡보통"` (medium). -/
theorem claim_C4_counterexample :
    (generate (fun _ _ _ => none) [] [] []).2 = confLow ∧ confLow ≠ confMed := by
  decide

/-- C4, amended.  The confidence defaults to medium when no recognized
marker is found in the model text; when the generation call fails it is
forced to low. -/
theorem claim_C4 (o : List Char → List Char → List Char → Option (List Char))
    (t c k d : List Char) :
    (o t c k = none → (generate o t c k).2 = confLow) ∧
    (o t c k = some d → hasSub tagHigh d = false → hasSub tagLow d = false →
      hasSub tagMed d = false → (generate o t c k).2 = confMed) := by
  constructor
  · intro h
    simp [generate, h]
  · intro h h1 h2 h3
    simp [generate, h, genParse, confOf, h1, h2, h3]

/-- C4, witness: a failed call yields low; a marker-free response yields
the medium default. -/
theorem claim_C4_witness :
    (generate (fun _ _ _ => none) [] [] []).2 = confLow ∧
    (generate (fun _ _ _ => some (s2l "확인 후 안내드리겠습니다.")) [] [] []).2 =
      confMed :=
  ⟨(claim_C4 (fun _ _ _ => none) [] [] [] []).1 rfl,
    (claim_C4 (fun _ _ _ => some (s2l "확인 후 안내드리겠습니다."))
      [] [] [] (s2l "확인 후 안내드리겠습니다.")).2 rfl
      (by decide) (by decide) (by decide)⟩

/-! ### Claim C5 -/

/-- C5, counterexample.  The claim says normalization never fails or
raises for any inbound event.  A request body holding the valid JSON
string `"hello"` (not an object) parses without error, after which
`raw_body.get(...)` raises `AttributeError` — the handler only guards the
JSON parse, not the attribute lookup. -/
theorem claim_C5_counterexample :
    normalize (.parsed (.jstr (s2l "hello"))) = .error .attributeError ∧
    ∀ p : QnAPayload, normalize (.parsed (.jstr (s2l "hello"))) ≠ .ok p := by
  refine ⟨rfl, ?_⟩
  intro p h
  simp [normalize] at h

/-- C5, amended.  For every inbound event whose body parses to a JSON
object — or is non-JSON/empty, substituted by an empty mapping — the
alias-mapping step populates every field: each text field takes the first
present truthy value among its ordered alias keys, with the documented
default when none is truthy, and the identifier takes the first truthy
value among `qna_no`, `no`, defaulting to the raw value of its last alias
`qnaNo` (null when absent).  Normalization then succeeds whenever the
mapped values have the shapes the payload model accepts (strings for the
text fields, an integer or null for the identifier) — in particular for
the empty mapping; but a mapped value pydantic cannot coerce (such as
`{"qna_no": "abc"}`) makes `QnAPayload(**mapped)` raise a validation
error, and a body parsing to a non-object JSON value makes the attribute
lookup raise. -/
theorem claim_C5 :
    (∀ m : List (List Char × JVal),
      (mapFields m).title =
        firstPresent ["title", "subject"] (.jstr (s2l "(제목 없음)")) m ∧
      (mapFields m).content =
        firstPresent ["content", "body", "question"] (.jstr []) m ∧
      (mapFields m).writer_name =
        firstPresent ["writer_name", "nickname", "member_name", "name"]
          (.jstr (s2l "익명")) m ∧
      (mapFields m).product_code =
        firstPresent ["product_code", "prod_code", "productCode"] (.jstr []) m ∧
      (mapFields m).category =
        firstPresent ["category", "type"] (.jstr (s2l "기타")) m ∧
      (mapFields m).channel =
        firstPresent ["channel"] (.jstr (s2l "아임웹Q&A")) m ∧
      (mapFields m).qna_no =
        firstPresent ["qna_no", "no"] (getJ m "qnaNo") m) ∧
    (∀ m : List (List Char × JVal), CoercibleShapes (mapFields m) →
      ∃ p : QnAPayload, normalize (.parsed (.jobj m)) = .ok p) ∧
    normalize .badJson =
      .ok ⟨none, s2l "(제목 없음)", [], s2l "익명", [], s2l "기타",
        s2l "아임웹Q&A"⟩ ∧
    normalize (.parsed (.jobj [(s2l "qna_no", .jstr (s2l "abc"))])) =
      .error .validationError ∧
    (∀ v : JVal, (∀ m, v ≠ .jobj m) →
      normalize (.parsed v) = .error .attributeError) := by
  refine ⟨fun m => ⟨rfl, rfl, rfl, rfl, rfl, rfl, rfl⟩, ?_, rfl, rfl, ?_⟩
  · intro m hc
    obtain ⟨hq, ⟨t, ht⟩, ⟨c2, hc2⟩, ⟨w2, hw2⟩, ⟨pc2, hpc2⟩, ⟨cat2, hcat2⟩,
      ⟨ch2, hch2⟩⟩ := hc
    rcases hq with hq | ⟨n, hq⟩
    · exact ⟨⟨none, t, c2, w2, pc2, cat2, ch2⟩,
        by simp [normalize, buildPayload, coerceOptInt, coerceStr, hq, ht, hc2,
          hw2, hpc2, hcat2, hch2, Bind.bind, Except.bind, pure, Except.pure]⟩
    · exact ⟨⟨some n, t, c2, w2, pc2, cat2, ch2⟩,
        by simp [normalize, buildPayload, coerceOptInt, coerceStr, hq, ht, hc2,
          hw2, hpc2, hcat2, hch2, Bind.bind, Except.bind, pure, Except.pure]⟩
  · intro v hv
    cases v with
    | jnull => rfl
    | jbool b => rfl
    | jnum n => rfl
    | jstr s => rfl
    | jarr xs => rfl
    | jobj m => exact absurd rfl (hv m)

/-- C5, witness: a coercible object body normalizes successfully, a
JSON-array body raises, and a one-key object body resolves its aliases
per the spec-side rule. -/
theorem claim_C5_witness :
    (∃ p : QnAPayload,
      normalize (.parsed (.jobj [(s2l "qna_no", .jnum 5),
        (s2l "title", .jstr (s2l "환불 문의"))])) = .ok p) ∧
    normalize (.parsed (.jarr [])) = .error .attributeError ∧
    (mapFields [(s2l "subject", .jstr (s2l "배송 문의"))]).title =
      firstPresent ["title", "subject"] (.jstr (s2l "(제목 없음)"))
        [(s2l "subject", .jstr (s2l "배송 문의"))] :=
  ⟨claim_C5.2.1 [(s2l "qna_no", .jnum 5), (s2l "title", .jstr (s2l "환불 문의"))]
      ⟨Or.inr ⟨5, rfl⟩, ⟨_, rfl⟩, ⟨_, rfl⟩, ⟨_, rfl⟩, ⟨_, rfl⟩, ⟨_, rfl⟩,
        ⟨_, rfl⟩⟩,
    claim_C5.2.2.2.2 (.jarr []) (fun _ h => JVal.noConfusion h),
    (claim_C5.1 [(s2l "subject", .jstr (s2l "배송 문의"))]).1⟩

/-! ### Claim C6 -/

/-- C6, counterexample.  The claim says every notification-webhook failure
leaves the request's success status unaffected, the failure only logged.
In this world the record is stored (200, well-formed body) but the
notification POST raises a transport error; nothing catches it (line 280,
call at line 367 unguarded), so the request aborts without the success
acknowledgment — and without logging the failure. -/
theorem claim_C6_counterexample :
    (pipeline ⟨fun _ _ _ => none, false, 200, some (s2l "id", s2l "url"),
        false, true, 0⟩ ⟨some 3, [], [], [], [], [], []⟩).1 =
      Resp.serverError ∧
    (pipeline ⟨fun _ _ _ => none, false, 200, some (s2l "id", s2l "url"),
        false, true, 0⟩ ⟨some 3, [], [], [], [], [], []⟩).1.isSuccess = false := by
  decide

/-- C6, amended.  For every notification-webhook failure response — a
non-200 status of a delivered notification POST, the failure mode
`send_slack_notification` branches on (lines 282-284) — the endpoint
still returns the success acknowledgment with the failure only logged; a
transport-level exception of the notification POST itself, however, is
caught nowhere and aborts the request without a success response. -/
theorem claim_C6 (w : World) (p : QnAPayload) (pid purl : List Char)
    (hnr : w.notionRaises = false) (h200 : w.notionStatus = 200)
    (hb : w.notionBody = some (pid, purl)) :
    (w.slackRaises = false → w.slackStatus ≠ 200 →
      (pipeline w p).1.isSuccess = true ∧
      (pipeline w p).2.slackCalled = true) ∧
    (w.slackRaises = true → (pipeline w p).1 = Resp.serverError) := by
  constructor
  · intro hsr _hs
    simp [pipeline, hnr, h200, hb, hsr, Resp.isSuccess]
  · intro hsr
    simp [pipeline, hnr, h200, hb, hsr]

/-- C6, witness: a delivered notification answered with 500 still yields
success; a raising notification POST aborts the request. -/
theorem claim_C6_witness :
    (pipeline ⟨fun _ _ _ => none, false, 200, some ([], []), false, false, 500⟩
      ⟨none, [], [], [], [], [], []⟩).1.isSuccess = true ∧
    (pipeline ⟨fun _ _ _ => none, false, 200, some ([], []), false, true, 500⟩
      ⟨none, [], [], [], [], [], []⟩).1 = Resp.serverError :=
  ⟨((claim_C6 ⟨fun _ _ _ => none, false, 200, some ([], []), false, false, 500⟩
      ⟨none, [], [], [], [], [], []⟩ [] [] rfl rfl rfl).1 rfl (by decide)).1,
    (claim_C6 ⟨fun _ _ _ => none, false, 200, some ([], []), false, true, 500⟩
      ⟨none, [], [], [], [], [], []⟩ [] [] rfl rfl rfl).2 rfl⟩

/-! ### Claim C7 -/

/-- C7.  The stored body text and stored draft are truncated to at most
2000 code points, the notification's content excerpt to at most 300, and
its draft excerpt to at most 500; inputs at or under each cap pass
through unchanged. -/
theorem claim_C7 (dk : List Char) (p : QnAPayload) (draft conf : List Char) :
    (buildNotionProps dk p draft conf).contentText.length ≤ 2000 ∧
    (p.content.length ≤ 2000 →
      (buildNotionProps dk p draft conf).contentText = p.content) ∧
    (buildNotionProps dk p draft conf).draftText.length ≤ 2000 ∧
    (draft.length ≤ 2000 → (buildNotionProps dk p draft conf).draftText = draft) ∧
    (buildSlackMsg p draft conf).contentExcerpt.length ≤ 300 ∧
    (p.content.length ≤ 300 →
      (buildSlackMsg p draft conf).contentExcerpt = p.content) ∧
    (buildSlackMsg p draft conf).draftExcerpt.length ≤ 500 ∧
    (draft.length ≤ 500 → (buildSlackMsg p draft conf).draftExcerpt = draft) := by
  refine ⟨?_, ?_, ?_, ?_, ?_, ?_, ?_, ?_⟩
  · show ((pyOrL p.content []).take 2000).length ≤ 2000
    simp [List.length_take]
  · intro h
    show (pyOrL p.content []).take 2000 = p.content
    rw [pyOrL_nil]
    exact List.take_of_length_le h
  · show (draft.take 2000).length ≤ 2000
    simp [List.length_take]
  · intro h
    exact List.take_of_length_le h
  · show ((pyOrL p.content []).take 300).length ≤ 300
    simp [List.length_take]
  · intro h
    show (pyOrL p.content []).take 300 = p.content
    rw [pyOrL_nil]
    exact List.take_of_length_le h
  · show (draft.take 500).length ≤ 500
    simp [List.length_take]
  · intro h
    exact List.take_of_length_le h

/-- C7, witness: a short body and draft pass through unchanged. -/
theorem claim_C7_witness :
    (buildNotionProps [] ⟨none, [], s2l "배송 확인 부탁드립니다", [], [], [], []⟩
      (s2l "답변 초안") confMed).contentText = s2l "배송 확인 부탁드립니다" ∧
    (buildSlackMsg ⟨none, [], s2l "배송 확인 부탁드립니다", [], [], [], []⟩
      (s2l "답변 초안") confMed).draftExcerpt = s2l "답변 초안" :=
  ⟨(claim_C7 [] ⟨none, [], s2l "배송 확인 부탁드립니다", [], [], [], []⟩
      (s2l "답변 초안") confMed).2.1 (by decide),
    (claim_C7 [] ⟨none, [], s2l "배송 확인 부탁드립니다", [], [], [], []⟩
      (s2l "답변 초안") confMed).2.2.2.2.2.2.2 (by decide)⟩

/-! ### Claim C8 -/

/-- C8.  Category and channel mapping is total and never fails: `"반품"`
maps to the combined exchange/return category `"교환반품"`; an absent
channel is normalized to the default `"아임웹Q&A"`, which maps to itself;
and every category or channel outside the static alias tables falls back
to `"기타"` / `"아임웹Q&A"` respectively. -/
theorem claim_C8 :
    mapCategory (s2l "반품") = s2l "교환반품" ∧
    (mapFields [(s2l "title", .jstr (s2l "환불 문의")),
      (s2l "category", .jstr (s2l "반품"))]).channel =
      .jstr (s2l "아임웹Q&A") ∧
    mapChannel (s2l "아임웹Q&A") = s2l "아임웹Q&A" ∧
    (∀ c : List Char, List.lookup c categoryMap = none →
      mapCategory c = s2l "기타") ∧
    (∀ ch : List Char, List.lookup ch channelMap = none →
      mapChannel ch = s2l "아임웹Q&A") := by
  refine ⟨by decide, rfl, by decide, ?_, ?_⟩
  · intro c h
    simp [mapCategory, h]
  · intro ch h
    simp [mapChannel, h]

/-- C8, witness: values outside the alias tables fall back to the
defaults. -/
theorem claim_C8_witness :
    mapCategory (s2l "환불") = s2l "기타" ∧
    mapChannel (s2l "카카오톡") = s2l "아임웹Q&A" :=
  ⟨claim_C8.2.2.2.1 (s2l "환불") (by decide),
    claim_C8.2.2.2.2 (s2l "카카오톡") (by decide)⟩

/-! ### Claim C9 -/

/-- C9.  On every execution path, the exception path included,
`generate_ai_draft` returns a confidence value from exactly the set
{🟢높음, 🟡보통, 🔴낮음}, so the notifier's `"⚪"` fallback emoji branch is
unreachable for pipeline-produced confidence values. -/
theorem claim_C9 (o : List Char → List Char → List Char → Option (List Char))
    (t c k : List Char) :
    ((generate o t c k).2 = confHigh ∨ (generate o t c k).2 = confMed ∨
      (generate o t c k).2 = confLow) ∧
    confEmoji (generate o t c k).2 ≠ s2l "⚪" := by
  have hset : (generate o t c k).2 = confHigh ∨ (generate o t c k).2 = confMed ∨
      (generate o t c k).2 = confLow := by
    cases ho : o t c k with
    | none =>
      right; right
      simp [generate, ho]
    | some d =>
      by_cases h1 : hasSub tagHigh d = true
      · left
        simp [generate, ho, genParse, confOf, h1]
      · by_cases h2 : hasSub tagLow d = true
        · right; right
          simp [generate, ho, genParse, confOf, h1, h2]
        · right; left
          simp [generate, ho, genParse, confOf, h1, h2]
  refine ⟨hset, ?_⟩
  rcases hset with h | h | h <;> rw [h] <;> decide

/-- C9, witness: the exception path of a concrete oracle. -/
theorem claim_C9_witness :
    ((generate (fun _ _ _ => none) (s2l "제목") [] []).2 = confHigh ∨
      (generate (fun _ _ _ => none) (s2l "제목") [] []).2 = confMed ∨
      (generate (fun _ _ _ => none) (s2l "제목") [] []).2 = confLow) ∧
    confEmoji (generate (fun _ _ _ => none) (s2l "제목") [] []).2 ≠ s2l "⚪" :=
  claim_C9 (fun _ _ _ => none) (s2l "제목") [] []

/-! ### Claim C10 -/

/-- C10.  Alias lookup treats a present-but-falsy value as absent and
falls through to the next alias or the default: generally for the
identifier and title chains, and concretely `{"qna_no": 0, "no": 7}`
yields identifier 7 while `{"title": ""}` yields the placeholder title. -/
theorem claim_C10 :
    (∀ m : List (List Char × JVal), truthy (getJ m "qna_no") = false →
      truthy (getJ m "no") = true → (mapFields m).qna_no = getJ m "no") ∧
    (∀ m : List (List Char × JVal), truthy (getJ m "title") = false →
      truthy (getJ m "subject") = false →
      (mapFields m).title = .jstr (s2l "(제목 없음)")) ∧
    (mapFields [(s2l "qna_no", .jnum 0), (s2l "no", .jnum 7)]).qna_no =
      .jnum 7 ∧
    (mapFields [(s2l "title", .jstr [])]).title = .jstr (s2l "(제목 없음)") := by
  refine ⟨?_, ?_, rfl, rfl⟩
  · intro m h1 h2
    simp [mapFields, pyOrJ, h1, h2]
  · intro m h1 h2
    simp [mapFields, pyOrJ, h1, h2]

/-- C10, witness: the general falsy-fallthrough applied to the two
concrete inbound events of the claim. -/
theorem claim_C10_witness :
    (mapFields [(s2l "qna_no", .jnum 0), (s2l "no", .jnum 7)]).qna_no =
      getJ [(s2l "qna_no", .jnum 0), (s2l "no", .jnum 7)] "no" ∧
    (mapFields [(s2l "title", .jstr [])]).title = .jstr (s2l "(제목 없음)") :=
  ⟨claim_C10.1 [(s2l "qna_no", .jnum 0), (s2l "no", .jnum 7)] rfl rfl,
    claim_C10.2.1 [(s2l "title", .jstr [])] rfl rfl⟩

end CSAgent
